import Mathlib

/-!
Verification development for the `rust-trading-system` repository.

The Rust sources are embedded shallowly:

* `serde_json::Value` becomes the inductive `Json`; JSON numbers are carried
  as exact rationals (every number appearing in this development is exactly
  representable as an IEEE double, so the exact model agrees with `f64`).
* `str::parse::<f64>` on decimal strings becomes `parseF64`, which follows the
  grammar of Rust's `f64: FromStr` (optional sign, digits, optional fraction,
  optional exponent) and returns the exactly-parsed rational; the non-finite
  literals (`inf`, `nan`) are outside the model and no claim touches them.
* The WebSocket read loop of `BinanceClient::start` becomes a pure function
  `processMessages` over the list of frames the connection yields; a text
  frame is represented by the result of `serde_json::from_str` on it
  (`none` = malformed JSON).
* The REST response handling of `TestnetTrader` becomes pure functions of the
  HTTP status, the raw body text, and the (serde) decode outcome of the body.
* `TestnetTrader::sign` is embedded as genuine HMAC-SHA-256 over byte lists
  (`Nat`s reduced mod 256), hex-encoded with the lowercase alphabet that the
  `hex` crate uses.
-/

namespace Trading

/-- Decidable equality for `Except`, used to evaluate the embedded operations
on concrete inputs. -/
instance {ε α : Type} [DecidableEq ε] [DecidableEq α] : DecidableEq (Except ε α) := fun x y =>
  match x, y with
  | Except.ok a, Except.ok b =>
      if h : a = b then isTrue (by rw [h]) else isFalse (by intro hc; injection hc; contradiction)
  | Except.error a, Except.error b =>
      if h : a = b then isTrue (by rw [h]) else isFalse (by intro hc; injection hc; contradiction)
  | Except.ok _, Except.error _ => isFalse (by intro hc; injection hc)
  | Except.error _, Except.ok _ => isFalse (by intro hc; injection hc)

/-- Model of `serde_json::Value`.  Object fields keep their key/value pairs
as an association list; lookups go through the first matching key, which is
all the repository ever does with objects. -/
inductive Json where
  | null
  | bool (b : Bool)
  | num (q : ℚ)
  | str (s : String)
  | arr (elems : List Json)
  | obj (fields : List (String × Json))

/-- Model of `Value::get(key)`: `Some` only on objects that contain the key. -/
def jGet (j : Json) (key : String) : Option Json :=
  match j with
  | Json.obj fields => fields.lookup key
  | _ => none

/-- Model of the `Index<&str>` impl used by `value["key"]`: a missing key or a
non-object yields `Value::Null` (never a panic in read position). -/
def jIndex (j : Json) (key : String) : Json :=
  (jGet j key).getD Json.null

/-- Model of `Value::as_str`. -/
def asStr (j : Json) : Option String :=
  match j with
  | Json.str s => some s
  | _ => none

/-- Model of `Value::as_u64`: a number that is a non-negative integer fitting
in 64 bits. -/
def asU64 (j : Json) : Option Nat :=
  match j with
  | Json.num q =>
      if q.den = 1 ∧ 0 ≤ q.num ∧ q.num < 18446744073709551616 then
        some q.num.toNat
      else none
  | _ => none

/-- Consume a maximal run of ASCII digits, returning the accumulated value,
the number of digits consumed, and the remaining characters. -/
def takeDigits : List Char → Nat → Nat → (Nat × Nat) × List Char
  | [], v, n => ((v, n), [])
  | c :: cs, v, n =>
    if c.isDigit then takeDigits cs (10 * v + (c.toNat - 48)) (n + 1)
    else ((v, n), c :: cs)

/-- Exponent digits of a float literal: after `e`/`E` and an optional sign
there must be at least one digit and nothing may follow. -/
def parseExpDigits (m : Int) (d : Nat) (esign : Bool) (cs : List Char) : Option ℚ :=
  match takeDigits cs 0 0 with
  | ((ev, en), rest) =>
    if en = 0 ∨ rest ≠ [] then none
    else some (if esign then mkRat m (d * 10 ^ ev) else mkRat (m * 10 ^ ev) d)

/-- Optional exponent part of a float literal; any other trailing characters
make the parse fail, as in Rust. -/
def parseMantExp (m : Int) (d : Nat) : List Char → Option ℚ
  | [] => some (mkRat m d)
  | c :: cs =>
    if c = 'e' ∨ c = 'E' then
      match cs with
      | '+' :: cs2 => parseExpDigits m d false cs2
      | '-' :: cs2 => parseExpDigits m d true cs2
      | cs2 => parseExpDigits m d false cs2
    else none

/-- Model of `str::parse::<f64>` on finite decimal literals, returning the
exactly-parsed rational.  Grammar as in Rust: optional sign, then
`Digits [. Digits?] | . Digits`, then an optional exponent. -/
def parseF64 (s : String) : Option ℚ :=
  let cs := s.toList
  let signRest : Int × List Char :=
    match cs with
    | '+' :: r => (1, r)
    | '-' :: r => (-1, r)
    | r => (1, r)
  match takeDigits signRest.2 0 0 with
  | ((ip, ipn), cs2) =>
    match cs2 with
    | '.' :: cs3 =>
      match takeDigits cs3 0 0 with
      | ((fp, fpn), cs4) =>
        if ipn = 0 ∧ fpn = 0 then none
        else parseMantExp (signRest.1 * ((ip : Int) * (10 : Int) ^ fpn + (fp : Int))) (10 ^ fpn) cs4
    | rest =>
      if ipn = 0 then none else parseMantExp (signRest.1 * (ip : Int)) 1 rest

/-- Model of `str::contains` (substring search; on valid UTF-8, byte-level
infix coincides with character-level infix). -/
def strContains (s pat : String) : Bool :=
  decide (pat.toList <:+: s.toList)

/-- The ticker record of `market_data/types.rs` (prices as exact rationals in
place of `f64`). -/
structure Ticker where
  symbol : String
  price : ℚ
  volume : ℚ
  timestamp : Nat
deriving DecidableEq

/-- One price level of an order book (`market_data/types.rs`). -/
structure OrderBookLevel where
  price : ℚ
  quantity : ℚ
deriving DecidableEq

/-- Order-book snapshot (`market_data/types.rs`); declared but never produced
by the ingest path. -/
structure OrderBook where
  symbol : String
  bids : List OrderBookLevel
  asks : List OrderBookLevel
  timestamp : Nat
deriving DecidableEq

/-- Trade side (`market_data/types.rs`). -/
inductive TradeSide where
  | buy
  | sell
deriving DecidableEq

/-- Trade record (`market_data/types.rs`); declared but never produced by the
ingest path. -/
structure Trade where
  symbol : String
  price : ℚ
  quantity : ℚ
  side : TradeSide
  timestamp : Nat
deriving DecidableEq

/-- The tagged union `MarketDataEvent` of `market_data/types.rs`. -/
inductive MarketDataEvent where
  | ticker (t : Ticker)
  | orderBook (b : OrderBook)
  | trade (t : Trade)
  | error (msg : String)
deriving DecidableEq

/-- Model of `BinanceClient::parse_ticker` (binance.rs lines 89-99): the
`"s"` field defaults to the empty string, the `"c"` and `"v"` fields default
to the string `"0"` before numeric parsing, `"E"` defaults to `0`; a numeric
parse failure aborts with the message of Rust's float parse error (the `?`),
before any event is sent. -/
def parse_ticker (t : Json) : Except String Ticker :=
  let symbol := (asStr (jIndex t "s")).getD ""
  match parseF64 ((asStr (jIndex t "c")).getD "0") with
  | none => Except.error "invalid float literal"
  | some price =>
    match parseF64 ((asStr (jIndex t "v")).getD "0") with
    | none => Except.error "invalid float literal"
    | some volume =>
      Except.ok (Ticker.mk symbol price volume ((asU64 (jIndex t "E")).getD 0))

/-- Events sent by a successful `parse_ticker` call: exactly one `Ticker`
event on success, nothing on failure (the send is the last thing the Rust
function does). -/
def tickerEvents (t : Json) : Except String (List MarketDataEvent) :=
  match parse_ticker t with
  | Except.ok tk => Except.ok [MarketDataEvent.ticker tk]
  | Except.error e => Except.error e

/-- Model of `BinanceClient::handle_message` (binance.rs lines 71-87) after
the `serde_json::from_str` step: the combined envelope is taken when a
string-valued `"stream"` field is present (and forwarded only when the stream
name contains `"@ticker"`); otherwise the single envelope is taken when the
`"e"` field is the string `"24hrTicker"`; every other frame is silently
discarded with success.  The returned list is the events sent downstream. -/
def handle_message (data : Json) : Except String (List MarketDataEvent) :=
  match (jGet data "stream").bind asStr with
  | some stream =>
      if strContains stream "@ticker" then tickerEvents (jIndex data "data") else Except.ok []
  | none =>
      if (jGet data "e").bind asStr = some "24hrTicker" then tickerEvents data else Except.ok []

/-- One inbound WebSocket item as seen by the read loop of
`BinanceClient::start`: a text frame is carried as the result of
`serde_json::from_str` on it (`none` = malformed JSON), `err` is a
transport-level read error carrying its rendered message, `close` a peer
close frame, `other` any binary/ping/pong frame. -/
inductive WsMsg where
  | text (parsed : Option Json)
  | close
  | err (msg : String)
  | other

/-- Model of the read loop of `BinanceClient::start` (binance.rs lines
30-47), as the list of events sent to the queue given the items the
connection yields, in order: a text frame contributes the events of
`handle_message` (a failure is only logged, contributing nothing); a close
frame breaks the loop; a transport error sends one `Error` event carrying the
message and the loop continues (the `Err` arm has no `break`); other frames
are ignored. -/
def processMessages : List WsMsg → List MarketDataEvent
  | [] => []
  | WsMsg.text none :: rest => processMessages rest
  | WsMsg.text (some j) :: rest =>
      (match handle_message j with
       | Except.ok evs => evs
       | Except.error _ => []) ++ processMessages rest
  | WsMsg.close :: _ => []
  | WsMsg.err e :: rest => MarketDataEvent.error e :: processMessages rest
  | WsMsg.other :: rest => processMessages rest

/-- Model of `BinanceClient::start` (binance.rs lines 23-50): the connection
attempt is represented by its outcome, `Except.error e` being a failed
`connect_async` (whose `?` returns the error before anything is sent) and
`Except.ok msgs` a connection yielding the given items.  The result is the
pair of the events sent to the queue and the value `start` returns. -/
def BinanceClient.start (conn : Except String (List WsMsg)) :
    List MarketDataEvent × Except String Unit :=
  match conn with
  | Except.error e => ([], Except.error e)
  | Except.ok msgs => (processMessages msgs, Except.ok ())

/-- Model of `MarketDataStream::new` (stream.rs lines 12-29): the spawned
background task runs `start` and merely logs its error, so `new` always
returns `Ok`; the handle is represented by the full list of events the queue
will ever deliver. -/
def MarketDataStream.new (conn : Except String (List WsMsg)) :
    Except String (List MarketDataEvent) :=
  Except.ok (BinanceClient.start conn).1

/-- Model of `MarketDataStream::next_event` once the producing task has ended:
the queue delivers the pending events in order and then `None`. -/
def next_event (pending : List MarketDataEvent) : Option MarketDataEvent :=
  pending.head?

/-- Balance record of `trading/types.rs` (the `f64` fields as rationals). -/
structure Balance where
  asset : String
  free : ℚ
  locked : ℚ

/-- Account information record of `trading/types.rs`. -/
structure AccountInfo where
  balances : List Balance
  can_trade : Bool
  can_withdraw : Bool
  can_deposit : Bool

/-- Order status enumeration of `trading/types.rs`. -/
inductive OrderStatus where
  | new
  | partiallyFilled
  | filled
  | canceled
  | rejected
  | expired

/-- Order response record of `trading/types.rs`; price and quantity fields
stay strings, as in the source. -/
structure OrderResponse where
  symbol : String
  order_id : Nat
  order_list_id : Int
  client_order_id : String
  transact_time : Option Nat
  price : String
  orig_qty : String
  executed_qty : String
  cummulative_quote_qty : String
  status : OrderStatus
  time_in_force : String
  order_type : String
  side : String
  time : Option Nat

/-- Model of `reqwest::StatusCode::is_success`: the 2xx range. -/
def isSuccess (status : Nat) : Bool :=
  200 ≤ status && status < 300

/-- The message of a failed operation, empty on success. -/
def errMsg {α : Type} (r : Except String α) : String :=
  match r with
  | Except.error m => m
  | Except.ok _ => ""

/-- Model of the response handling of `TestnetTrader::get_account_info`
(client.rs lines 56-68): the HTTP response is represented by its status and
raw body text, and the serde deserialization of the body by its outcome
`decoded` (the error case carrying serde's message).  A non-success status
fails with the body appended to `"API Error: "`; a decode failure fails with
a message carrying both serde's error and the raw body.  Request construction
(parameter building and signing) is modeled separately by
`build_query_string` and `sign`. -/
def get_account_info (status : Nat) (body : String)
    (decoded : Except String AccountInfo) : Except String AccountInfo :=
  if isSuccess status then
    match decoded with
    | Except.ok a => Except.ok a
    | Except.error e =>
        Except.error ("Failed to parse account info: " ++ e ++ ". Response was: " ++ body)
  else Except.error ("API Error: " ++ body)

/-- Model of the response handling of `TestnetTrader::get_open_orders`
(client.rs lines 192-204), shaped like `get_account_info` but for a list of
orders and with the message prefix `"Failed to parse open orders: "`. -/
def get_open_orders (status : Nat) (body : String)
    (decoded : Except String (List OrderResponse)) : Except String (List OrderResponse) :=
  if isSuccess status then
    match decoded with
    | Except.ok os => Except.ok os
    | Except.error e =>
        Except.error ("Failed to parse open orders: " ++ e ++ ". Response was: " ++ body)
  else Except.error ("API Error: " ++ body)

/-- Model of the response handling of `TestnetTrader::place_market_order`
(client.rs lines 108-116): a non-success status fails with the body appended
to `"Order Error: "`; on a success status the body is decoded with
`response.json()`, whose failure (the `?`) surfaces the HTTP library's decode
error built from serde's message — the raw body text is not part of it. -/
def place_market_order (status : Nat) (body : String)
    (decoded : Except String OrderResponse) : Except String OrderResponse :=
  if isSuccess status then
    match decoded with
    | Except.ok r => Except.ok r
    | Except.error e => Except.error ("error decoding response body: " ++ e)
  else Except.error ("Order Error: " ++ body)

/-- Model of the response handling of `TestnetTrader::place_limit_order`
(client.rs lines 159-167), identical in shape to `place_market_order`. -/
def place_limit_order (status : Nat) (body : String)
    (decoded : Except String OrderResponse) : Except String OrderResponse :=
  if isSuccess status then
    match decoded with
    | Except.ok r => Except.ok r
    | Except.error e => Except.error ("error decoding response body: " ++ e)
  else Except.error ("Order Error: " ++ body)

/-- Model of the response handling of `TestnetTrader::cancel_order`
(client.rs lines 232-240): non-success fails with `"Cancel Error: "` and the
body; decode failure goes through `response.json()` as in the order
placements. -/
def cancel_order (status : Nat) (body : String)
    (decoded : Except String OrderResponse) : Except String OrderResponse :=
  if isSuccess status then
    match decoded with
    | Except.ok r => Except.ok r
    | Except.error e => Except.error ("error decoding response body: " ++ e)
  else Except.error ("Cancel Error: " ++ body)

/-- Model of `TestnetTrader::get_current_price` (client.rs lines 243-254).
The status is a parameter only to record that the source never inspects it:
the body is fed to `response.json()` directly (`parsed` is its outcome), the
`"price"` field is read as a string and numerically parsed; a missing or
non-string field fails with the fixed message `"Could not parse price"`. -/
def get_current_price (status : Nat) (parsed : Except String Json) : Except String ℚ :=
  match status, parsed with
  | _, Except.error e => Except.error ("error decoding response body: " ++ e)
  | _, Except.ok data =>
    match asStr (jIndex data "price") with
    | some s =>
      match parseF64 s with
      | some q => Except.ok q
      | none => Except.error "invalid float literal"
    | none => Except.error "Could not parse price"

/-- Lexicographic comparison of character lists by code point; this is the
order `Ord for String` in Rust induces (byte-wise comparison of UTF-8 agrees
with code-point-wise comparison). -/
def charListLe : List Char → List Char → Bool
  | c :: cs, d :: ds => if c < d then true else if d < c then false else charListLe cs ds
  | [], _ => true
  | _, _ => false

/-- String comparison as performed by Rust's `sort_by_key` on `String` keys. -/
def strLe (a b : String) : Bool :=
  charListLe a.toList b.toList

/-- The sort step of `TestnetTrader::build_query_string` (client.rs lines
257-258): the `HashMap` is modeled as its list of entries (iteration order
arbitrary, keys distinct) and `sort_by_key` by a stable merge sort on the
keys, matching Rust's stable `sort_by_key`. -/
def sortedParams (params : List (String × String)) : List (String × String) :=
  params.mergeSort (fun a b => strLe a.1 b.1)

/-- Model of `TestnetTrader::build_query_string` (client.rs lines 256-265):
sort the entries by key, render each as `key=value`, join with `&`.  No
URL-encoding is applied anywhere, and the function is total. -/
def build_query_string (params : List (String × String)) : String :=
  String.intercalate "&" ((sortedParams params).map (fun p => p.1 ++ "=" ++ p.2))

/-- Rotate a 32-bit word right by `n` bits. -/
def rotr (n w : Nat) : Nat :=
  ((w >>> n) ||| (w <<< (32 - n))) % 4294967296

/-- SHA-256 message-schedule function sigma-0. -/
def ssig0 (x : Nat) : Nat :=
  rotr 7 x ^^^ rotr 18 x ^^^ (x >>> 3)

/-- SHA-256 message-schedule function sigma-1. -/
def ssig1 (x : Nat) : Nat :=
  rotr 17 x ^^^ rotr 19 x ^^^ (x >>> 10)

/-- SHA-256 compression function Sigma-0. -/
def bsig0 (x : Nat) : Nat :=
  rotr 2 x ^^^ rotr 13 x ^^^ rotr 22 x

/-- SHA-256 compression function Sigma-1. -/
def bsig1 (x : Nat) : Nat :=
  rotr 6 x ^^^ rotr 11 x ^^^ rotr 25 x

/-- SHA-256 choice function. -/
def chFn (x y z : Nat) : Nat :=
  (x &&& y) ^^^ ((x ^^^ 4294967295) &&& z)

/-- SHA-256 majority function. -/
def majFn (x y z : Nat) : Nat :=
  (x &&& y) ^^^ (x &&& z) ^^^ (y &&& z)

/-- The 64 SHA-256 round constants of FIPS 180-4, in decimal. -/
def sha256K : List Nat :=
  [1116352408, 1899447441, 3049323471, 3921009573, 961987163,
   1508970993, 2453635748, 2870763221, 3624381080, 310598401,
   607225278, 1426881987, 1925078388, 2162078206, 2614888103,
   3248222580, 3835390401, 4022224774, 264347078, 604807628,
   770255983, 1249150122, 1555081692, 1996064986, 2554220882,
   2821834349, 2952996808, 3210313671, 3336571891, 3584528711,
   113926993, 338241895, 666307205, 773529912, 1294757372,
   1396182291, 1695183700, 1986661051, 2177026350, 2456956037,
   2730485921, 2820302411, 3259730800, 3345764771, 3516065817,
   3600352804, 4094571909, 275423344, 430227734, 506948616,
   659060556, 883997877, 958139571, 1322822218, 1537002063,
   1747873779, 1955562222, 2024104815, 2227730452, 2361852424,
   2428436474, 2756734187, 3204031479, 3329325298]

/-- Working state of the SHA-256 compression function: eight 32-bit words. -/
structure Sha256State where
  a : Nat
  b : Nat
  c : Nat
  d : Nat
  e : Nat
  f : Nat
  g : Nat
  hh : Nat

/-- Initial SHA-256 hash value of FIPS 180-4, in decimal. -/
def sha256Init : Sha256State :=
  Sha256State.mk 1779033703 3144134277 1013904242 2773480762
    1359893119 2600822924 528734635 1541459225

/-- Big-endian bytes of a 32-bit word. -/
def word32Bytes (w : Nat) : List Nat :=
  [w / 16777216 % 256, w / 65536 % 256, w / 256 % 256, w % 256]

/-- Big-endian 8-byte encoding of the 64-bit message length in bits. -/
def len64Bytes (n : Nat) : List Nat :=
  [n / 2 ^ 56 % 256, n / 2 ^ 48 % 256, n / 2 ^ 40 % 256, n / 2 ^ 32 % 256,
   n / 2 ^ 24 % 256, n / 2 ^ 16 % 256, n / 2 ^ 8 % 256, n % 256]

/-- SHA-256 padding: append `0x80`, zero bytes up to 56 mod 64, then the
bit length. -/
def sha256Pad (msg : List Nat) : List Nat :=
  msg ++ (128 :: List.replicate ((64 - (msg.length + 9) % 64) % 64) 0) ++ len64Bytes (8 * msg.length)

/-- Split a byte list into 64-byte blocks. -/
def chunks64 : List Nat → List (List Nat)
  | [] => []
  | x :: xs => (x :: xs).take 64 :: chunks64 ((x :: xs).drop 64)
termination_by l => l.length
decreasing_by simp; omega

/-- Group bytes four at a time into big-endian 32-bit words. -/
def bytesToWords : List Nat → List Nat
  | b0 :: b1 :: b2 :: b3 :: rest => (((b0 * 256 + b1) * 256 + b2) * 256 + b3) :: bytesToWords rest
  | _ => []

/-- Extend the 16 block words by `k` further schedule words. -/
def extendWords (ws : List Nat) : Nat → List Nat
  | 0 => ws
  | k + 1 =>
    let i := ws.length
    let w := (ssig1 (ws.getD (i - 2) 0) + ws.getD (i - 7) 0 + ssig0 (ws.getD (i - 15) 0) +
              ws.getD (i - 16) 0) % 4294967296
    extendWords (ws ++ [w]) k

/-- One SHA-256 round, consuming the sum of a round constant and a schedule
word. -/
def sha256Round (st : Sha256State) (kw : Nat) : Sha256State :=
  let t1 := (st.hh + bsig1 st.e + chFn st.e st.f st.g + kw) % 4294967296
  let t2 := (bsig0 st.a + majFn st.a st.b st.c) % 4294967296
  Sha256State.mk ((t1 + t2) % 4294967296) st.a st.b st.c ((st.d + t1) % 4294967296) st.e st.f st.g

/-- SHA-256 compression of one 64-byte block into the running hash value. -/
def sha256Compress (st : Sha256State) (block : List Nat) : Sha256State :=
  let ws := extendWords (bytesToWords block) 48
  let kws := List.zipWith (fun k w => k + w) sha256K ws
  let fin := kws.foldl sha256Round st
  Sha256State.mk ((st.a + fin.a) % 4294967296) ((st.b + fin.b) % 4294967296)
    ((st.c + fin.c) % 4294967296) ((st.d + fin.d) % 4294967296)
    ((st.e + fin.e) % 4294967296) ((st.f + fin.f) % 4294967296)
    ((st.g + fin.g) % 4294967296) ((st.hh + fin.hh) % 4294967296)

/-- Big-endian serialization of the final hash state: always 32 bytes. -/
def stateBytes (st : Sha256State) : List Nat :=
  word32Bytes st.a ++ word32Bytes st.b ++ word32Bytes st.c ++ word32Bytes st.d ++
  word32Bytes st.e ++ word32Bytes st.f ++ word32Bytes st.g ++ word32Bytes st.hh

/-- SHA-256 of a byte list (inputs are reduced mod 256, as `u8` values are). -/
def sha256 (msg : List Nat) : List Nat :=
  stateBytes ((chunks64 (sha256Pad (msg.map (fun b => b % 256)))).foldl sha256Compress sha256Init)

/-- HMAC-SHA-256 (RFC 2104): keys longer than the 64-byte block are hashed
first, shorter keys are zero-padded; any key length is accepted, which is why
the `expect` on `HmacSha256::new_from_slice` in `TestnetTrader::sign` can
never fire. -/
def hmacSha256 (key msg : List Nat) : List Nat :=
  let k0 := if 64 < key.length then sha256 key else key.map (fun b => b % 256)
  let k := k0 ++ List.replicate (64 - k0.length) 0
  sha256 ((k.map (fun b => b ^^^ 92)) ++ sha256 ((k.map (fun b => b ^^^ 54)) ++ msg))

/-- The lowercase hexadecimal digit of a value (taken mod 16): `0`-`9` then
`a`-`f`, as in the table `hex::encode` indexes. -/
def hexDigit (n : Nat) : Char :=
  Char.ofNat (if n % 16 < 10 then 48 + n % 16 else 87 + n % 16)

/-- Model of `hex::encode`: two lowercase hex digits per byte. -/
def hexEncode : List Nat → List Char
  | [] => []
  | b :: bs => hexDigit (b / 16) :: hexDigit b :: hexEncode bs

/-- Model of `TestnetTrader::sign` (client.rs lines 267-272): HMAC-SHA-256 of
the UTF-8 bytes of the query string under the UTF-8 bytes of the secret key,
hex-encoded in lowercase.  Byte strings are `List Nat` (reduced mod 256). -/
def sign (secret message : List Nat) : String :=
  String.mk (hexEncode (hmacSha256 secret message))

/-- The sixteen characters `hex::encode` can produce. -/
def hexAlphabet : List Char :=
  "0123456789abcdef".toList

/-- The `data` object of the combined-stream example frame of the design
notes: symbol `BTCUSDT`, last price `"50000.00"`, volume `"1000.0"`, event
time `1640995200000`. -/
def examplePayload : Json :=
  Json.obj [("s", Json.str "BTCUSDT"), ("c", Json.str "50000.00"),
            ("v", Json.str "1000.0"), ("E", Json.num 1640995200000)]

/-- The same ticker payload as a single-envelope frame: the event-type field
`"e": "24hrTicker"` plus the same payload fields. -/
def examplePayloadE : Json :=
  Json.obj [("e", Json.str "24hrTicker"), ("s", Json.str "BTCUSDT"),
            ("c", Json.str "50000.00"), ("v", Json.str "1000.0"),
            ("E", Json.num 1640995200000)]

/-- A single-envelope ticker frame whose price field is not numeric: its
decode fails on the field parse. -/
def badTickerFrame : Json :=
  Json.obj [("e", Json.str "24hrTicker"), ("c", Json.str "abc")]

/-- The parse of the exchange error payload
`\x7b"code":-1121,"msg":"Invalid symbol."\x7d`, the body an exchange sends
with a non-success status. -/
def errPayload : Json :=
  Json.obj [("code", Json.num (-1121)), ("msg", Json.str "Invalid symbol.")]

/-- The executable comparison `charListLe` decides the lexicographic order on
character lists. -/
theorem charListLe_iff (l₁ l₂ : List Char) : charListLe l₁ l₂ = true ↔ ¬ l₂ < l₁ := by
  induction l₁ generalizing l₂ with
  | nil =>
    cases l₂ with
    | nil => simp [charListLe]
    | cons b bs => simp [charListLe]
  | cons a as ih =>
    cases l₂ with
    | nil =>
      refine iff_of_false (by simp [charListLe]) ?_
      exact fun h => h List.Lex.nil
    | cons b bs =>
      by_cases hab : a < b
      · refine iff_of_true (by simp [charListLe, hab]) ?_
        intro h
        cases h with
        | cons h2 => exact lt_irrefl a hab
        | rel h2 => exact lt_asymm hab h2
      · by_cases hba : b < a
        · refine iff_of_false (by simp [charListLe, hab, hba]) ?_
          intro h
          exact h (List.Lex.rel hba)
        · have heq : b = a := le_antisymm (not_lt.mp hab) (not_lt.mp hba)
          subst heq
          simp only [charListLe, if_neg hab, if_neg hba]
          rw [ih bs]
          constructor
          · intro h hl
            cases hl with
            | cons h2 => exact h h2
            | rel h2 => exact lt_irrefl b h2
          · exact fun h hl => h (List.Lex.cons hl)

/-- `strLe` decides the linear order on strings. -/
theorem strLe_iff (a b : String) : strLe a b = true ↔ a ≤ b := by
  rw [strLe, charListLe_iff, String.le_iff_toList_le]
  exact not_lt

/-- The key order used by `sortedParams` is transitive (as a boolean test). -/
theorem strLe_bool_trans (a b c : String × String) (hab : strLe a.1 b.1 = true)
    (hbc : strLe b.1 c.1 = true) : strLe a.1 c.1 = true :=
  (strLe_iff _ _).mpr (le_trans ((strLe_iff _ _).mp hab) ((strLe_iff _ _).mp hbc))

/-- The key order used by `sortedParams` is total (as a boolean test). -/
theorem strLe_bool_total (a b : String × String) :
    (strLe a.1 b.1 || strLe b.1 a.1) = true := by
  rcases le_total a.1 b.1 with h | h
  · simp [(strLe_iff _ _).mpr h]
  · simp [(strLe_iff _ _).mpr h]

/-- The entry list produced by the sorting step is sorted by key. -/
theorem sortedParams_pairwise (l : List (String × String)) :
    List.Pairwise (fun a b : String × String => a.1 ≤ b.1) (sortedParams l) := by
  have h := @List.sorted_mergeSort (String × String) (fun a b => strLe a.1 b.1)
    strLe_bool_trans strLe_bool_total l
  exact h.imp (fun hab => (strLe_iff _ _).mp hab)

/-- The sorting step permutes the entry list. -/
theorem sortedParams_perm (l : List (String × String)) : (sortedParams l).Perm l :=
  List.mergeSort_perm l _

/-- A string contains any suffix of itself. -/
theorem strContains_append_right (a b : String) : strContains (a ++ b) b = true := by
  refine decide_eq_true ⟨a.toList, [], ?_⟩
  simp [String.toList, String.data_append]

/-- The serialized hash state is always 32 bytes. -/
theorem stateBytes_length (st : Sha256State) : (stateBytes st).length = 32 := by
  simp [stateBytes, word32Bytes]

/-- SHA-256 digests are always 32 bytes. -/
theorem sha256_length (msg : List Nat) : (sha256 msg).length = 32 := by
  rw [sha256]
  exact stateBytes_length _

/-- HMAC-SHA-256 digests are always 32 bytes. -/
theorem hmacSha256_length (key msg : List Nat) : (hmacSha256 key msg).length = 32 := by
  rw [hmacSha256]
  exact sha256_length _

/-- Hex encoding yields two characters per byte. -/
theorem hexEncode_length (l : List Nat) : (hexEncode l).length = 2 * l.length := by
  induction l with
  | nil => rfl
  | cons b bs ih =>
    simp [hexEncode, ih]
    ring

/-- Every character hex encoding produces is a lowercase hex digit. -/
theorem hexDigit_mem (n : Nat) : hexDigit n ∈ hexAlphabet := by
  have h : n % 16 < 16 := Nat.mod_lt _ (by omega)
  rw [hexDigit, hexAlphabet]
  generalize n % 16 = k at h ⊢
  interval_cases k <;> decide

/-- Every character of a hex encoding is a lowercase hex digit. -/
theorem hexEncode_mem (l : List Nat) (c : Char) (hc : c ∈ hexEncode l) : c ∈ hexAlphabet := by
  induction l with
  | nil => cases hc
  | cons b bs ih =>
    rw [hexEncode] at hc
    rcases List.mem_cons.mp hc with hc | hc
    · rw [hc]; exact hexDigit_mem _
    · rcases List.mem_cons.mp hc with hc | hc
      · rw [hc]; exact hexDigit_mem _
      · exact ih hc

/-- C1 counterexample: the claim says the read loop ends after a transport
error so that the stream yields no further events; but the `Err` arm of the
loop has no `break`, so a ticker frame arriving after the error is still
processed and a Ticker event follows the Error event. -/
theorem cex_C1 :
    processMessages [WsMsg.err "boom", WsMsg.text (some examplePayloadE)] =
      [MarketDataEvent.error "boom",
       MarketDataEvent.ticker (Ticker.mk "BTCUSDT" 50000 1000 1640995200000)] := by
  decide

/-- C1 (amended): when a transport-level read error occurs, an Error event
carrying the error's message is forwarded to the event queue, but the read
loop does not end — it keeps processing whatever the stream yields next; the
loop ends only on a peer close frame or when the stream is exhausted. -/
theorem spec_C1 (e : String) (rest : List WsMsg) :
    processMessages (WsMsg.err e :: rest) =
      MarketDataEvent.error e :: processMessages rest := rfl

/-- C2 counterexample: the claim says a frame that fails to decode is
reported as an Error event on the event stream; but the loop only logs the
failure — a bad frame (field parse failure) and a malformed-JSON frame both
produce no event at all. -/
theorem cex_C2 :
    processMessages [WsMsg.text (some badTickerFrame)] = [] ∧
    processMessages [WsMsg.text none] = [] := by
  decide

/-- C2 (amended): a per-frame decode failure is logged and discarded — no
Error event (nor any other event) is emitted for that frame — and the read
loop continues with the remaining frames; the connection is not terminated
by a per-frame parse failure. -/
theorem spec_C2 (j : Json) (m : String) (rest : List WsMsg)
    (h : handle_message j = Except.error m) :
    processMessages (WsMsg.text (some j) :: rest) = processMessages rest ∧
    processMessages (WsMsg.text none :: rest) = processMessages rest := by
  constructor
  · show (match handle_message j with
      | Except.ok evs => evs
      | Except.error _ => []) ++ processMessages rest = processMessages rest
    rw [h]
    rfl
  · rfl

/-- C2 witness: a ticker frame with a non-numeric price fails to decode, is
dropped without an event, and the following good frame is still processed. -/
theorem spec_C2_witness :
    processMessages [WsMsg.text (some badTickerFrame), WsMsg.text (some examplePayloadE)] =
      processMessages [WsMsg.text (some examplePayloadE)] ∧
    processMessages [WsMsg.text none, WsMsg.text (some examplePayloadE)] =
      processMessages [WsMsg.text (some examplePayloadE)] :=
  spec_C2 badTickerFrame "invalid float literal" [WsMsg.text (some examplePayloadE)] (by decide)

/-- C7: the combined-envelope path (string `stream` field naming a ticker
channel, payload under `data`) and the single-envelope path (`e` field equal
to `24hrTicker`) emit the same events for identical ticker payloads; and the
combined-stream example frame of the design notes emits the Ticker event
with symbol BTCUSDT, price 50000, volume 1000, timestamp 1640995200000. -/
theorem spec_C7 (p : Json) (name : String)
    (h1 : (jGet p "stream").bind asStr = none)
    (h2 : (jGet p "e").bind asStr = some "24hrTicker")
    (h3 : strContains name "@ticker" = true) :
    handle_message (Json.obj [("stream", Json.str name), ("data", p)]) = handle_message p ∧
    handle_message (Json.obj [("stream", Json.str "btcusdt@ticker"), ("data", examplePayload)]) =
      Except.ok [MarketDataEvent.ticker (Ticker.mk "BTCUSDT" 50000 1000 1640995200000)] := by
  constructor
  · have hl : handle_message (Json.obj [("stream", Json.str name), ("data", p)]) =
        if strContains name "@ticker" = true then tickerEvents p else Except.ok [] := rfl
    have hr : handle_message p = tickerEvents p := by
      unfold handle_message
      rw [h1]
      simp [h2]
    rw [hl, hr, if_pos h3]
  · decide

/-- C7 witness: the equivalence applied to the example payload carrying the
`e` tag, wrapped in the combined envelope. -/
theorem spec_C7_witness :
    handle_message (Json.obj [("stream", Json.str "btcusdt@ticker"), ("data", examplePayloadE)]) =
      handle_message examplePayloadE ∧
    handle_message (Json.obj [("stream", Json.str "btcusdt@ticker"), ("data", examplePayload)]) =
      Except.ok [MarketDataEvent.ticker (Ticker.mk "BTCUSDT" 50000 1000 1640995200000)] :=
  spec_C7 examplePayloadE "btcusdt@ticker" (by decide) (by decide) (by decide)

/-- C8: a ticker payload whose `c` (price) and `s` (symbol) fields are
missing (as strings) decodes successfully with price `0` and empty symbol
rather than failing, the `c` and `v` fields defaulting to the string `"0"`
before numeric parsing and the symbol to the empty string. -/
theorem spec_C8 (j : Json) (q : ℚ)
    (hc : asStr (jIndex j "c") = none)
    (hs : asStr (jIndex j "s") = none)
    (hv : parseF64 ((asStr (jIndex j "v")).getD "0") = some q) :
    parse_ticker j = Except.ok (Ticker.mk "" 0 q ((asU64 (jIndex j "E")).getD 0)) := by
  have h0 : parseF64 "0" = some (0 : ℚ) := by decide
  unfold parse_ticker
  rw [hc, hs]
  simp [hv, h0]

/-- C8 witness: the empty object decodes to the all-default ticker. -/
theorem spec_C8_witness : parse_ticker (Json.obj []) = Except.ok (Ticker.mk "" 0 0 0) :=
  spec_C8 (Json.obj []) 0 (by decide) (by decide) (by decide)

/-- C9: a failed WebSocket connection attempt is invisible to the caller of
`MarketDataStream::new` — the constructor still returns a handle (it is
always `Ok`), no Error event is ever queued for the connect failure, and
`next_event` on the resulting stream returns `none` rather than the
failure. -/
theorem spec_C9 (conn : Except String (List WsMsg)) (e : String) :
    (MarketDataStream.new conn).isOk = true ∧
    MarketDataStream.new (Except.error e) = Except.ok [] ∧
    next_event (BinanceClient.start (Except.error e)).1 = none :=
  ⟨rfl, rfl, rfl⟩

/-- C10: a well-formed frame matching neither envelope — no string-valued
`stream` field and an `e` field that is not the string `24hrTicker` — is
silently discarded: `handle_message` succeeds and emits no event. -/
theorem spec_C10 (j : Json)
    (h1 : (jGet j "stream").bind asStr = none)
    (h2 : (jGet j "e").bind asStr ≠ some "24hrTicker") :
    handle_message j = Except.ok [] := by
  unfold handle_message
  rw [h1]
  simp [h2]

/-- C10 witness: an unrelated JSON object is dropped without any event. -/
theorem spec_C10_witness :
    handle_message (Json.obj [("foo", Json.str "bar")]) = Except.ok [] :=
  spec_C10 (Json.obj [("foo", Json.str "bar")]) (by decide) (by decide)

set_option maxRecDepth 8000 in
/-- C3 counterexample: the claim says every signed operation's parse failure
carries the raw response body; but `place_market_order` decodes through
`response.json()`, whose failure message is built from the library prefix
and serde's message only — for the success-status body `[1,2,3]` that fails
to decode, the resulting message does not contain the body. -/
theorem cex_C3 :
    strContains
      (errMsg (place_market_order 200 "[1,2,3]"
        (Except.error "invalid type: sequence, expected struct OrderResponse")))
      "[1,2,3]" = false := by
  decide

/-- C3 (amended): on a success status with a body that fails to deserialize,
`get_account_info` and `get_open_orders` return a parse failure whose
message carries the raw response body text, while `place_market_order`,
`place_limit_order` and `cancel_order` surface the HTTP library's decode
failure, whose message is built from serde's error only and does not carry
the raw body. -/
theorem spec_C3 (st : Nat) (body e : String) (hst : isSuccess st = true) :
    strContains (errMsg (get_account_info st body (Except.error e))) body = true ∧
    strContains (errMsg (get_open_orders st body (Except.error e))) body = true ∧
    place_market_order st body (Except.error e) =
      Except.error ("error decoding response body: " ++ e) ∧
    place_limit_order st body (Except.error e) =
      Except.error ("error decoding response body: " ++ e) ∧
    cancel_order st body (Except.error e) =
      Except.error ("error decoding response body: " ++ e) := by
  refine ⟨?_, ?_, ?_, ?_, ?_⟩ <;>
    simp only [get_account_info, get_open_orders, place_market_order, place_limit_order,
      cancel_order, hst, if_true, errMsg]
  · exact strContains_append_right _ _
  · exact strContains_append_right _ _

/-- C3 witness: the amended statement at a concrete success status, body and
serde message. -/
theorem spec_C3_witness :
    strContains (errMsg (get_account_info 200 "RAWBODY" (Except.error "missing field"))) "RAWBODY" = true ∧
    strContains (errMsg (get_open_orders 200 "RAWBODY" (Except.error "missing field"))) "RAWBODY" = true ∧
    place_market_order 200 "RAWBODY" (Except.error "missing field") =
      Except.error ("error decoding response body: " ++ "missing field") ∧
    place_limit_order 200 "RAWBODY" (Except.error "missing field") =
      Except.error ("error decoding response body: " ++ "missing field") ∧
    cancel_order 200 "RAWBODY" (Except.error "missing field") =
      Except.error ("error decoding response body: " ++ "missing field") :=
  spec_C3 200 "RAWBODY" "missing field" (by decide)

set_option maxRecDepth 8000 in
/-- C4 counterexample: the claim says every operation, including the
unsigned `get_current_price`, surfaces a non-success status as a failure
carrying the raw body; but `get_current_price` never checks the status — for
a 400 response whose body is the exchange error payload
`\x7b"code":-1121,"msg":"Invalid symbol."\x7d` (parsed as `errPayload`), it
returns the fixed message `Could not parse price`, which does not contain
that body text. -/
theorem cex_C4 :
    get_current_price 400 (Except.ok errPayload) = Except.error "Could not parse price" ∧
    strContains (errMsg (get_current_price 400 (Except.ok errPayload)))
      "\x7b\"code\":-1121,\"msg\":\"Invalid symbol.\"\x7d" = false := by
  decide

/-- C4 (amended): every signed operation surfaces a non-success HTTP status
as a failure whose message contains the raw response body; the unsigned
`get_current_price` however never inspects the status — its result is the
same as for a success status — and its failures do not carry the body. -/
theorem spec_C4 (st : Nat) (body : String) (da : Except String AccountInfo)
    (dm dl dc : Except String OrderResponse) (dos : Except String (List OrderResponse))
    (pj : Except String Json) (hst : isSuccess st = false) :
    strContains (errMsg (get_account_info st body da)) body = true ∧
    strContains (errMsg (get_open_orders st body dos)) body = true ∧
    strContains (errMsg (place_market_order st body dm)) body = true ∧
    strContains (errMsg (place_limit_order st body dl)) body = true ∧
    strContains (errMsg (cancel_order st body dc)) body = true ∧
    get_current_price st pj = get_current_price 200 pj := by
  refine ⟨?_, ?_, ?_, ?_, ?_, ?_⟩
  · simp only [get_account_info, hst, Bool.false_eq_true, if_false, errMsg]
    exact strContains_append_right _ _
  · simp only [get_open_orders, hst, Bool.false_eq_true, if_false, errMsg]
    exact strContains_append_right _ _
  · simp only [place_market_order, hst, Bool.false_eq_true, if_false, errMsg]
    exact strContains_append_right _ _
  · simp only [place_limit_order, hst, Bool.false_eq_true, if_false, errMsg]
    exact strContains_append_right _ _
  · simp only [cancel_order, hst, Bool.false_eq_true, if_false, errMsg]
    exact strContains_append_right _ _
  · cases pj <;> rfl

/-- C4 witness: the amended statement at a concrete non-success status. -/
theorem spec_C4_witness :
    strContains (errMsg (get_account_info 404 "oops" (Except.error "x"))) "oops" = true ∧
    strContains (errMsg (get_open_orders 404 "oops" (Except.error "x"))) "oops" = true ∧
    strContains (errMsg (place_market_order 404 "oops" (Except.error "x"))) "oops" = true ∧
    strContains (errMsg (place_limit_order 404 "oops" (Except.error "x"))) "oops" = true ∧
    strContains (errMsg (cancel_order 404 "oops" (Except.error "x"))) "oops" = true ∧
    get_current_price 404 (Except.ok Json.null) = get_current_price 200 (Except.ok Json.null) :=
  spec_C4 404 "oops" (Except.error "x") (Except.error "x") (Except.error "x") (Except.error "x")
    (Except.error "x") (Except.ok Json.null) (by decide)

/-- C5: `build_query_string` renders the entries sorted by key — the key
sequence is non-decreasing in the lexicographic string order — and is a pure
function of the mapping's contents: two entry lists holding the same
key-value pairs (in any order, keys distinct as in a `HashMap`) canonicalize
to the identical string.  The function is total and applies no
URL-encoding. -/
theorem spec_C5 (l₁ l₂ : List (String × String)) (hp : l₁.Perm l₂)
    (hnd : (l₁.map Prod.fst).Nodup) :
    build_query_string l₁ = build_query_string l₂ ∧
    List.Pairwise (fun a b : String × String => a.1 ≤ b.1) (sortedParams l₁) := by
  refine ⟨?_, sortedParams_pairwise l₁⟩
  have hnd₂ : (l₂.map Prod.fst).Nodup := ((hp.map Prod.fst).nodup_iff).mp hnd
  have key : ∀ (l : List (String × String)), (l.map Prod.fst).Nodup →
      List.Pairwise (fun a b : String × String => a.1 < b.1) (sortedParams l) := by
    intro l hl
    have hmap : ((sortedParams l).map Prod.fst).Nodup :=
      (((sortedParams_perm l).map Prod.fst).nodup_iff).mpr hl
    have hne : List.Pairwise (fun a b : String × String => a.1 ≠ b.1) (sortedParams l) :=
      List.pairwise_map.mp hmap
    exact ((sortedParams_pairwise l).and hne).imp (fun h => lt_of_le_of_ne h.1 h.2)
  have hperm : (sortedParams l₁).Perm (sortedParams l₂) :=
    ((sortedParams_perm l₁).trans hp).trans (sortedParams_perm l₂).symm
  haveI : IsAntisymm (String × String) (fun a b => a.1 < b.1) :=
    ⟨fun a b h h2 => absurd h2 (lt_asymm h)⟩
  have heq : sortedParams l₁ = sortedParams l₂ :=
    List.eq_of_perm_of_sorted hperm (key l₁ hnd) (key l₂ hnd₂)
  rw [build_query_string, build_query_string, heq]

/-- C5 witness: the parameter set of the repository's own signature test, in
two insertion orders. -/
theorem spec_C5_witness :
    build_query_string [("symbol", "BTCUSDT"), ("side", "BUY"), ("timestamp", "1640995200000")] =
      build_query_string [("timestamp", "1640995200000"), ("side", "BUY"), ("symbol", "BTCUSDT")] ∧
    List.Pairwise (fun a b : String × String => a.1 ≤ b.1)
      (sortedParams [("symbol", "BTCUSDT"), ("side", "BUY"), ("timestamp", "1640995200000")]) :=
  spec_C5 _ _ (by decide) (by decide)

/-- C6: for every secret key (of any length, including empty) and every
message, `sign` is total — the HMAC key construction accepts any key length,
so the `expect` is unreachable — and returns exactly 64 characters, each a
lowercase hexadecimal digit (the hex encoding of the 32-byte HMAC-SHA-256
digest). -/
theorem spec_C6 (secret message : List Nat) :
    (sign secret message).length = 64 ∧
    ∀ c ∈ (sign secret message).toList, c ∈ hexAlphabet := by
  constructor
  · have h1 : (sign secret message).length = (hexEncode (hmacSha256 secret message)).length := rfl
    rw [h1, hexEncode_length, hmacSha256_length]
  · intro c hc
    exact hexEncode_mem (hmacSha256 secret message) c hc

end Trading
